import Mathlib

/-!
Verification of `src/main.py` (chinese_calendar_tocsv): a shallow embedding of
`generate_calendar_csv`, `validate_date_range`, and the CPython `datetime` /
`os.path` semantics the script relies on, together with proofs about the
claims of the specification.

The external capabilities (`lunar_python`, `chinese_calendar`) are modelled
as an abstract bundle of provider functions, as the spec treats them.
-/

namespace ChineseCalendarCsv

/-- Gregorian date, as CPython's `datetime.date` triple of year/month/day. -/
structure Date where
  year : Nat
  month : Nat
  day : Nat
deriving DecidableEq, Repr

/-- CPython `_is_leap`: `year % 4 == 0 and (year % 100 != 0 or year % 400 == 0)`. -/
def isLeapYear (y : Nat) : Bool :=
  y % 4 == 0 && (y % 100 != 0 || y % 400 == 0)

/-- CPython `_days_in_month` via `_DAYS_IN_MONTH = [-1,31,28,31,30,31,30,31,31,30,31,30,31]`
with the February leap adjustment. Months outside 1..12 never arise on valid dates. -/
def daysInMonth (y : Nat) (m : Nat) : Nat :=
  match m with
  | 2 => if isLeapYear y then 29 else 28
  | 4 => 30
  | 6 => 30
  | 9 => 30
  | 11 => 30
  | _ => 31

/-- CPython `_days_before_month`: number of days in year `y` preceding month `m`
(the cumulative sum CPython precomputes as `_DAYS_BEFORE_MONTH`). -/
def daysBeforeMonth (y : Nat) : Nat → Nat
  | 0 => 0
  | m + 1 => daysBeforeMonth y m + if m = 0 then 0 else daysInMonth y m

/-- CPython `_days_before_year`: `y = year - 1; y*365 + y//4 - y//100 + y//400`. -/
def daysBeforeYear (year : Nat) : Nat :=
  (year - 1) * 365 + (year - 1) / 4 - (year - 1) / 100 + (year - 1) / 400

/-- CPython `_ymd2ord` / `date.toordinal`: proleptic Gregorian ordinal,
with 0001-01-01 having ordinal 1. -/
def ord (d : Date) : Nat :=
  daysBeforeYear d.year + daysBeforeMonth d.year d.month + d.day

/-- CPython `date.weekday()`: `(toordinal() + 6) % 7`, Monday = 0. -/
def weekdayIndex (d : Date) : Nat := (ord d + 6) % 7

/-- The invariant CPython's `_check_date_fields` maintains for every constructed
`date` (we keep the year upper bound `MAXYEAR = 9999` separate, since date
succession is defined without it). -/
def ValidDate (d : Date) : Prop :=
  1 ≤ d.year ∧ 1 ≤ d.month ∧ d.month ≤ 12 ∧ 1 ≤ d.day ∧ d.day ≤ daysInMonth d.year d.month

instance (d : Date) : Decidable (ValidDate d) := by unfold ValidDate; infer_instance

/-- Python `date` comparison (`current <= end`): lexicographic on (year, month, day). -/
def dateLe (a b : Date) : Bool :=
  decide (a.year < b.year ∨ (a.year = b.year ∧
    (a.month < b.month ∨ (a.month = b.month ∧ a.day ≤ b.day))))

/-- Python `current + timedelta(days=1)` restated on the y/m/d triple. -/
def nextDay (d : Date) : Date :=
  if d.day < daysInMonth d.year d.month then ⟨d.year, d.month, d.day + 1⟩
  else if d.month < 12 then ⟨d.year, d.month + 1, 1⟩
  else ⟨d.year + 1, 1, 1⟩

/-- Inclusive day count of the range `[a, b]` (0 when `b` precedes `a`). -/
def daySpan (a b : Date) : Nat := ord b + 1 - ord a

/- ### Arithmetic facts about the date model -/

theorem daysInMonth_ge (y m : Nat) : 28 ≤ daysInMonth y m := by
  unfold daysInMonth
  split
  · split <;> omega
  all_goals omega

theorem daysInMonth_le (y m : Nat) : daysInMonth y m ≤ 31 := by
  unfold daysInMonth
  split
  · split <;> omega
  all_goals omega

theorem daysBeforeMonth_succ (y m : Nat) (h : 1 ≤ m) :
    daysBeforeMonth y (m + 1) = daysBeforeMonth y m + daysInMonth y m := by
  cases m with
  | zero => omega
  | succ k => simp [daysBeforeMonth]

theorem daysBeforeMonth_mono (y : Nat) {m m' : Nat} (h : m ≤ m') :
    daysBeforeMonth y m ≤ daysBeforeMonth y m' := by
  induction m' with
  | zero => simp [Nat.le_zero.mp h]
  | succ k ih =>
    rcases Nat.lt_or_ge m (k + 1) with hlt | hge
    · have := ih (by omega)
      simp only [daysBeforeMonth]
      omega
    · have : m = k + 1 := by omega
      subst this; exact le_refl _

/-- A full year spans 365 or 366 days according to leapness. -/
theorem daysBeforeMonth_year (y : Nat) :
    daysBeforeMonth y 13 = if isLeapYear y then 366 else 365 := by
  simp only [daysBeforeMonth, daysInMonth]
  by_cases h : isLeapYear y <;> simp [h]

theorem isLeapYear_iff (y : Nat) :
    isLeapYear y = true ↔ (y % 4 = 0 ∧ (y % 100 ≠ 0 ∨ y % 400 = 0)) := by
  unfold isLeapYear
  simp [Bool.and_eq_true, Bool.or_eq_true]

theorem daysBeforeYear_succ (y : Nat) (hy : 1 ≤ y) :
    daysBeforeYear (y + 1) = daysBeforeYear y + daysBeforeMonth y 13 := by
  rw [daysBeforeMonth_year]
  by_cases c4 : y % 4 = 0
  · have e4 : y / 4 = (y - 1) / 4 + 1 := by omega
    by_cases c100 : y % 100 = 0
    · have e100 : y / 100 = (y - 1) / 100 + 1 := by omega
      by_cases c400 : y % 400 = 0
      · have e400 : y / 400 = (y - 1) / 400 + 1 := by omega
        rw [if_pos ((isLeapYear_iff y).mpr ⟨c4, Or.inr c400⟩)]
        unfold daysBeforeYear
        simp only [Nat.add_sub_cancel]
        rw [e4, e100, e400]
        omega
      · have e400 : y / 400 = (y - 1) / 400 := by omega
        rw [if_neg (fun hl => by
          rcases (isLeapYear_iff y).mp hl with ⟨h1, h2 | h2⟩
          · exact h2 c100
          · exact c400 h2)]
        unfold daysBeforeYear
        simp only [Nat.add_sub_cancel]
        rw [e4, e100, e400]
        omega
    · have e100 : y / 100 = (y - 1) / 100 := by omega
      have c400 : y % 400 ≠ 0 := fun hc => c100 (by omega)
      have e400 : y / 400 = (y - 1) / 400 := by omega
      rw [if_pos ((isLeapYear_iff y).mpr ⟨c4, Or.inl c100⟩)]
      unfold daysBeforeYear
      simp only [Nat.add_sub_cancel]
      rw [e4, e100, e400]
      omega
  · have e4 : y / 4 = (y - 1) / 4 := by omega
    have c100 : y % 100 ≠ 0 := fun hc => c4 (by omega)
    have e100 : y / 100 = (y - 1) / 100 := by omega
    have c400 : y % 400 ≠ 0 := fun hc => c4 (by omega)
    have e400 : y / 400 = (y - 1) / 400 := by omega
    rw [if_neg (fun hl => c4 ((isLeapYear_iff y).mp hl).1)]
    unfold daysBeforeYear
    simp only [Nat.add_sub_cancel]
    rw [e4, e100, e400]
    omega

theorem daysBeforeYear_mono {y y' : Nat} (h : y ≤ y') :
    daysBeforeYear y ≤ daysBeforeYear y' := by
  have h1 : (y - 1) / 4 ≤ (y' - 1) / 4 := Nat.div_le_div_right (by omega)
  have h3 : (y - 1) / 400 ≤ (y' - 1) / 400 := Nat.div_le_div_right (by omega)
  rcases Nat.lt_or_ge (y - 1) (y' - 1) with hlt | hge
  · unfold daysBeforeYear
    omega
  · have heq : y - 1 = y' - 1 := by omega
    unfold daysBeforeYear
    rw [heq]

/- ### Date succession -/

theorem daysBeforeMonth_one (y : Nat) : daysBeforeMonth y 1 = 0 := rfl

theorem ord_nextDay {d : Date} (h : ValidDate d) : ord (nextDay d) = ord d + 1 := by
  obtain ⟨hy, hm1, hm2, hd1, hd2⟩ := h
  unfold nextDay
  split
  · rename_i hday
    simp only [ord]
    omega
  · split
    · rename_i hday hmon
      have hb := daysBeforeMonth_succ d.year d.month hm1
      simp only [ord]
      omega
    · rename_i hday hmon
      have hm : d.month = 12 := by omega
      have h12 : daysInMonth d.year 12 = 31 := by simp [daysInMonth]
      have hday31 : d.day = 31 := by
        rw [hm] at hd2
        rw [h12] at hd2
        rw [hm] at hday
        rw [h12] at hday
        omega
      have hsucc := daysBeforeYear_succ d.year hy
      have h13 : daysBeforeMonth d.year 13 = daysBeforeMonth d.year 12 + daysInMonth d.year 12 :=
        daysBeforeMonth_succ d.year 12 (by omega)
      have hz : daysBeforeMonth (d.year + 1) 1 = 0 := rfl
      simp only [ord]
      rw [hm, hday31, hz]
      omega

theorem Date.eq_of_fields {a b : Date} (h1 : a.year = b.year) (h2 : a.month = b.month)
    (h3 : a.day = b.day) : a = b := by
  obtain ⟨x1, x2, x3⟩ := a
  obtain ⟨z1, z2, z3⟩ := b
  dsimp only at h1 h2 h3
  rw [h1, h2, h3]

theorem validDate_nextDay {d : Date} (h : ValidDate d) : ValidDate (nextDay d) := by
  obtain ⟨hy, hm1, hm2, hd1, hd2⟩ := h
  unfold nextDay
  split
  · rename_i hday
    unfold ValidDate
    dsimp only
    omega
  · split
    · rename_i hday hmon
      have hge := daysInMonth_ge d.year (d.month + 1)
      unfold ValidDate
      dsimp only
      omega
    · rename_i hday hmon
      have hge := daysInMonth_ge (d.year + 1) 1
      unfold ValidDate
      dsimp only
      omega

/-- The ordinal `ord` is strictly monotone with respect to the lexicographic (Python) date
order, on valid dates. -/
theorem ord_lt_ord {a b : Date} (ha : ValidDate a) (hb : ValidDate b)
    (hlt : a.year < b.year ∨ (a.year = b.year ∧
      (a.month < b.month ∨ (a.month = b.month ∧ a.day < b.day)))) :
    ord a < ord b := by
  obtain ⟨hay, ham1, ham2, had1, had2⟩ := ha
  obtain ⟨hby, hbm1, hbm2, hbd1, hbd2⟩ := hb
  unfold ord
  rcases hlt with hy | ⟨hy, hm | ⟨hm, hd⟩⟩
  · have hs := daysBeforeMonth_succ a.year a.month ham1
    have hmono := daysBeforeMonth_mono a.year (show a.month + 1 ≤ 13 by omega)
    have h2 := daysBeforeYear_succ a.year hay
    have h3 : daysBeforeYear (a.year + 1) ≤ daysBeforeYear b.year :=
      daysBeforeYear_mono (by omega)
    omega
  · rw [hy] at had2 ⊢
    have hs := daysBeforeMonth_succ b.year a.month ham1
    have hmono := daysBeforeMonth_mono b.year (show a.month + 1 ≤ b.month by omega)
    omega
  · rw [hy, hm]
    omega

/-- The Python comparison `current <= end` agrees with ordinal comparison on
valid dates. -/
theorem dateLe_iff {a b : Date} (ha : ValidDate a) (hb : ValidDate b) :
    dateLe a b = true ↔ ord a ≤ ord b := by
  unfold dateLe
  rw [decide_eq_true_iff]
  constructor
  · intro h
    rcases h with hy | ⟨hy, hm | ⟨hm, hd⟩⟩
    · exact le_of_lt (ord_lt_ord ha hb (Or.inl hy))
    · exact le_of_lt (ord_lt_ord ha hb (Or.inr ⟨hy, Or.inl hm⟩))
    · rcases Nat.lt_or_ge a.day b.day with hlt | hge
      · exact le_of_lt (ord_lt_ord ha hb (Or.inr ⟨hy, Or.inr ⟨hm, hlt⟩⟩))
      · have hde : a.day = b.day := by omega
        rw [Date.eq_of_fields hy hm hde]
  · intro h
    by_contra hc
    have hlt : b.year < a.year ∨ (b.year = a.year ∧
        (b.month < a.month ∨ (b.month = a.month ∧ b.day < a.day))) := by omega
    exact absurd h (not_le.mpr (ord_lt_ord hb ha hlt))

/-- The ordinal `ord` is injective on valid dates. -/
theorem date_eq_of_ord_eq {a b : Date} (ha : ValidDate a) (hb : ValidDate b)
    (h : ord a = ord b) : a = b := by
  by_contra hne
  have hfields : ¬ (a.year = b.year ∧ a.month = b.month ∧ a.day = b.day) := fun hcomp =>
    hne (Date.eq_of_fields hcomp.1 hcomp.2.1 hcomp.2.2)
  have htri : (a.year < b.year ∨ (a.year = b.year ∧
      (a.month < b.month ∨ (a.month = b.month ∧ a.day < b.day))))
      ∨ (b.year < a.year ∨ (b.year = a.year ∧
      (b.month < a.month ∨ (b.month = a.month ∧ b.day < a.day)))) := by omega
  rcases htri with h1 | h1
  · exact absurd h (Nat.ne_of_lt (ord_lt_ord ha hb h1))
  · exact absurd h.symm (Nat.ne_of_lt (ord_lt_ord hb ha h1))

/-- Transitivity of the Python date comparison. -/
theorem dateLe_trans {a b c : Date} (h1 : dateLe a b = true) (h2 : dateLe b c = true) :
    dateLe a c = true := by
  unfold dateLe at h1 h2 ⊢
  rw [decide_eq_true_iff] at h1 h2 ⊢
  omega

/-- Lexicographic `dateLe` bounds the year componentwise. -/
theorem dateLe_year_le {a b : Date} (h : dateLe a b = true) : a.year ≤ b.year := by
  unfold dateLe at h
  rw [decide_eq_true_iff] at h
  omega

/- ### Date strings: CPython strftime / strptime semantics for "%Y-%m-%d" -/

/-- ASCII digit value of a character, `none` for non-digits. -/
def digitVal (c : Char) : Option Nat :=
  if 48 ≤ c.toNat ∧ c.toNat ≤ 57 then some (c.toNat - 48) else none

/-- The decimal digit character for `n % 10`. -/
def digitChar (n : Nat) : Char := Char.ofNat (48 + n % 10)

/-- Python `current.strftime("%Y-%m-%d")`: zero-padded 4-digit year, 2-digit month
and day (faithful for years 1000..9999 — the only years this program can
emit, year padding below 1000 being platform-dependent in CPython). -/
def formatDate (d : Date) : String :=
  ⟨[digitChar (d.year / 1000), digitChar (d.year / 100), digitChar (d.year / 10),
    digitChar d.year, '-', digitChar (d.month / 10), digitChar d.month, '-',
    digitChar (d.day / 10), digitChar d.day]⟩

/-- The strptime `%m` field, CPython regex `1[0-2]|0[1-9]|[1-9]`: one or two
digits with value 1..12, the two-digit match preferred (falling back to one
digit exactly as the ordered regex alternation does). -/
def parseMonthField : List Char → Option (Nat × List Char)
  | [] => none
  | c1 :: rest1 =>
    match digitVal c1 with
    | none => none
    | some v1 =>
      match rest1 with
      | c2 :: rest2 =>
        match digitVal c2 with
        | some v2 =>
          if 1 ≤ v1 * 10 + v2 ∧ v1 * 10 + v2 ≤ 12 then some (v1 * 10 + v2, rest2)
          else if 1 ≤ v1 then some (v1, rest1) else none
        | none => if 1 ≤ v1 then some (v1, rest1) else none
      | [] => if 1 ≤ v1 then some (v1, []) else none

/-- The strptime `%d` field, CPython regex `3[0-1]|[1-2]\d|0[1-9]|[1-9]| [1-9]`:
one or two digits with value 1..31, or a space followed by one digit. -/
def parseDayField : List Char → Option (Nat × List Char)
  | [] => none
  | c1 :: rest1 =>
    if c1 = ' ' then
      match rest1 with
      | [] => none
      | c2 :: rest2 =>
        match digitVal c2 with
        | some v2 => if 1 ≤ v2 then some (v2, rest2) else none
        | none => none
    else
      match digitVal c1 with
      | none => none
      | some v1 =>
        match rest1 with
        | c2 :: rest2 =>
          match digitVal c2 with
          | some v2 =>
            if 1 ≤ v1 * 10 + v2 ∧ v1 * 10 + v2 ≤ 31 then some (v1 * 10 + v2, rest2)
            else if 1 ≤ v1 then some (v1, rest1) else none
          | none => if 1 ≤ v1 then some (v1, rest1) else none
        | [] => if 1 ≤ v1 then some (v1, []) else none

/-- Python `datetime.strptime(s, "%Y-%m-%d").date()` as called in
`generate_calendar_csv`: `%Y` is exactly four digits (CPython regex
`\d\d\d\d`), `%m` / `%d` are the lenient one-or-two-digit CPython patterns,
the separators are literal dashes, the whole string must be consumed
("unconverted data remains" otherwise), and the parsed fields must pass the
`date` constructor's `_check_date_fields` (MINYEAR/MAXYEAR bounds and month
length). `none` models the `ValueError` that the script converts into its
format error.

`checkDateFields` is CPython's `_check_date_fields`, run by the `date`
constructor on the parsed fields. -/
def checkDateFields (y m day : Nat) : Option Date :=
  if 1 ≤ y ∧ y ≤ 9999 ∧ 1 ≤ m ∧ m ≤ 12 ∧ 1 ≤ day ∧ day ≤ daysInMonth y m
  then some ⟨y, m, day⟩ else none

def parseDate (s : String) : Option Date :=
  match s.toList with
  | c1 :: c2 :: c3 :: c4 :: '-' :: rest =>
    match digitVal c1, digitVal c2, digitVal c3, digitVal c4 with
    | some v1, some v2, some v3, some v4 =>
      match parseMonthField rest with
      | some (m, '-' :: rest2) =>
        match parseDayField rest2 with
        | some (day, []) =>
          checkDateFields (((v1 * 10 + v2) * 10 + v3) * 10 + v4) m day
        | _ => none
      | _ => none
    | _, _, _, _ => none
  | _ => none

/-- Python `os.path.dirname` (POSIX): the prefix up to the final slash, where a
prefix consisting only of slashes is kept as-is and trailing slashes are
otherwise stripped. -/
def dirname (p : String) : String :=
  let head := (p.toList.reverse.dropWhile (fun c => c ≠ '/')).reverse
  if head ≠ [] ∧ head.any (fun c => c ≠ '/') then
    ⟨(head.reverse.dropWhile (fun c => c = '/')).reverse⟩
  else ⟨head⟩

/- ### External capabilities (spec §6), treated as black boxes -/

/-- Result of `lunar_python`'s `Solar.fromYmd(...).getLunar()` as consumed by
the script: `getYear` / `getMonth` / `getDay` (month signed, negative
encoding a leap month), `getFestivals`, `getOtherFestivals`,
`getYearShengXiao` and `getJieQi`; `none` models Python `None`. -/
structure LunarInfo where
  lunarYear : Int
  lunarMonth : Int
  lunarDay : Int
  festivals : Option (List String)
  otherFestivals : Option (List String)
  shengXiao : String
  jieQi : Option String

/-- The external provider bundle: lunar conversion plus `chinese_calendar`'s
`is_holiday`, `is_workday` and `get_holiday_detail` (a pair of an
on-holiday flag and an optional holiday name, `none` modelling `None`). -/
structure Providers where
  lunar : Date → LunarInfo
  is_holiday : Date → Bool
  is_workday : Date → Bool
  get_holiday_detail : Date → Bool × Option String

/- ### Row construction (the loop body of `generate_calendar_csv`) -/

/-- The list `WEEKDAY_NAMES` (src/main.py line 13), indexed by `date.weekday()`. -/
def WEEKDAY_NAMES : List String := ["周一", "周二", "周三", "周四", "周五", "周六", "周日"]

/-- The 上旬/中旬/下旬 decade-of-month bucket (src/main.py lines 71-76). -/
def decadeLabel (g_day : Nat) : String :=
  if 1 ≤ g_day ∧ g_day ≤ 10 then "上旬"
  else if 11 ≤ g_day ∧ g_day ≤ 20 then "中旬"
  else "下旬"

/-- Python `", ".join`. -/
def joinComma : List String → String
  | [] => ""
  | [s] => s
  | s :: rest => s ++ ", " ++ joinComma rest

/-- CPython `_isoweek1monday`: ordinal of the Monday starting ISO week 1. -/
def isoweek1monday (year : Nat) : Int :=
  let firstday : Int := (ord ⟨year, 1, 1⟩ : Nat)
  let firstweekday := (firstday + 6) % 7
  let week1monday := firstday - firstweekday
  if 3 < firstweekday then week1monday + 7 else week1monday

/-- CPython `date.isocalendar()[1]` (`current.isocalendar()[1]` in the
script): the ISO-8601 week number; Python floor division is `Int.fdiv`. -/
def isoWeekNumber (d : Date) : Nat :=
  let today : Int := (ord d : Nat)
  let week := (today - isoweek1monday d.year).fdiv 7
  if week < 0 then
    ((today - isoweek1monday (d.year - 1)).fdiv 7 + 1).toNat
  else if 52 ≤ week ∧ isoweek1monday (d.year + 1) ≤ today then 1
  else (week + 1).toNat

/-- One CSV data row, fields in the exact order of the script's
`fieldnames`. -/
structure Row where
  gregorianDate : String
  gYear : Nat
  gMonth : Nat
  gDay : Nat
  decade : String
  weekNumber : Nat
  weekday : String
  lunarYear : Int
  lunarMonth : Int
  lunarDay : Int
  isLeapMonth : String
  lunarFestival : String
  shengXiao : String
  jieQi : String
  isHolidayStr : String
  isWorkdayStr : String
  holidayName : String
deriving DecidableEq, Repr

/-- The source date of a row, recovered from its Gregorian component fields. -/
def rowDate (r : Row) : Date := ⟨r.gYear, r.gMonth, r.gDay⟩

/-- The loop body of `generate_calendar_csv` (src/main.py lines 64-137):
build the row for the day `current` from the Gregorian fields and the
external providers, exactly as the script assembles its `row` dict. -/
def mkRow (P : Providers) (current : Date) : Row :=
  let g_year := current.year
  let g_month := current.month
  let g_day := current.day
  let weekday := WEEKDAY_NAMES.getD (weekdayIndex current) ""
  let shang_zhong_xia := decadeLabel g_day
  let week_number := isoWeekNumber current
  let info := P.lunar current
  let l_year := info.lunarYear
  let l_month := info.lunarMonth
  let l_day := info.lunarDay
  let is_leap := l_month < 0
  let festivals := info.festivals.getD []
  let other_festivals := info.otherFestivals.getD []
  let all_festivals := festivals ++ other_festivals
  let lunar_festival := if all_festivals ≠ [] then joinComma all_festivals else ""
  let shengxiao := info.shengXiao
  let jieqi := info.jieQi.getD ""
  let is_hol := P.is_holiday current
  let is_work := if is_hol then !is_hol else P.is_workday current
  let hol_name := if is_hol then ((P.get_holiday_detail current).2).getD "" else ""
  { gregorianDate := formatDate current
    gYear := g_year
    gMonth := g_month
    gDay := g_day
    decade := shang_zhong_xia
    weekNumber := week_number
    weekday := weekday
    lunarYear := l_year
    lunarMonth := |l_month|
    lunarDay := l_day
    isLeapMonth := if is_leap then "是" else "否"
    lunarFestival := lunar_festival
    shengXiao := shengxiao
    jieQi := jieqi
    isHolidayStr := if is_hol then "是" else "否"
    isWorkdayStr := if is_work then "是" else "否"
    holidayName := hol_name }

/- ### The whole of `generate_calendar_csv` -/

/-- The CSV header (`fieldnames`, src/main.py lines 47-54). -/
def fieldnames : List String :=
  ["公历日期", "公历年", "公历月", "公历日", "公历旬", "周数", "星期",
   "农历年", "农历月", "农历日", "是否闰月", "农历节日", "生肖", "节气",
   "是否节假日", "是否工作日", "节日名称"]

/-- The `while current <= end` loop of `generate_calendar_csv`, with explicit
fuel: each iteration emits one row and advances `current` by one day. -/
def genRows (P : Providers) (current endD : Date) : Nat → List Row
  | 0 => []
  | fuel + 1 =>
    if dateLe current endD then mkRow P current :: genRows P (nextDay current) endD fuel
    else []

/-- Fuel-instrumented run of the same while loop: `none` when the fuel runs
out while the loop condition still holds (the loop would keep going). -/
def loopIter (P : Providers) (current endD : Date) : Nat → Option (List Row)
  | 0 => if dateLe current endD then none else some []
  | fuel + 1 =>
    if dateLe current endD then
      (loopIter P (nextDay current) endD fuel).map (fun rows => mkRow P current :: rows)
    else some []

/-- The error taxonomy of spec §7 for failures raised before/instead of
writing: the format, order and range `ValueError`s, and the `OSError` from
`os.makedirs` (spec `IOError`). -/
inductive CalError where
  | formatError
  | orderError
  | rangeError
  | ioError
deriving DecidableEq, Repr

/-- Filesystem effects of a run, in order of occurrence. -/
inductive FsEffect where
  | mkdir (dir : String)
  | writeFile (path : String) (header : List String) (rows : List Row)
deriving DecidableEq, Repr

def CHINESE_CALENDAR_MIN_YEAR : Nat := 2004

def CHINESE_CALENDAR_MAX_YEAR : Nat := 2030

/-- Python `validate_date_range` (src/main.py lines 16-22): `true` iff it raises. -/
def validate_date_range_fails (start endD : Date) : Bool :=
  decide (start.year < CHINESE_CALENDAR_MIN_YEAR ∨ CHINESE_CALENDAR_MAX_YEAR < endD.year)

/-- Python `generate_calendar_csv(start_date_str, end_date_str, output_file)`:
the filesystem effects performed (in order) and the raised error, if any.
Mirrors the statement order of src/main.py lines 33-139: parse both date
strings, check `start > end`, `validate_date_range`, then
`os.makedirs(os.path.dirname(output_file), exist_ok=True)` — which raises
`FileNotFoundError` when the dirname is empty, since `os.makedirs("")`
ends in `mkdir("")` — and finally open the file and write the header and
one row per day. -/
def generate_calendar_csv (P : Providers)
    (start_date_str end_date_str output_file : String) :
    List FsEffect × Option CalError :=
  match parseDate start_date_str with
  | none => ([], some .formatError)
  | some start =>
    match parseDate end_date_str with
    | none => ([], some .formatError)
    | some endD =>
      if ¬ dateLe start endD then ([], some .orderError)
      else if validate_date_range_fails start endD then ([], some .rangeError)
      else if dirname output_file = "" then ([], some .ioError)
      else ([.mkdir (dirname output_file),
             .writeFile output_file fieldnames
               (genRows P start endD (daySpan start endD))],
            none)

/-- All data rows written by the recorded effects, in order. -/
def emittedRows (effects : List FsEffect) : List Row :=
  (effects.map fun e =>
    match e with
    | .writeFile _ _ rows => rows
    | .mkdir _ => []).flatten

/-- A trivial provider bundle, used as a concrete test double in witnesses
(the script treats providers as black boxes). -/
def trivialProviders : Providers where
  lunar := fun _ => ⟨2025, 1, 1, some [], some [], "蛇", none⟩
  is_holiday := fun _ => false
  is_workday := fun _ => true
  get_holiday_detail := fun _ => (false, none)

/-- A provider bundle reporting every day as a holiday whose detail carries
no name — as `chinese_calendar.get_holiday_detail` does on ordinary
weekends. -/
def unnamedHolidayProviders : Providers where
  lunar := fun _ => ⟨2025, 1, 1, some [], some [], "蛇", none⟩
  is_holiday := fun _ => true
  is_workday := fun _ => false
  get_holiday_detail := fun _ => (true, none)

/- ### Structure of the generation loop -/

/-- The ideal day sequence: `n` consecutive days starting at `c`. -/
def dateSeq (c : Date) : Nat → List Date
  | 0 => []
  | n + 1 => c :: dateSeq (nextDay c) n

theorem dateLe_refl (a : Date) : dateLe a a = true := by
  unfold dateLe
  rw [decide_eq_true_iff]
  omega

theorem length_dateSeq (c : Date) (n : Nat) : (dateSeq c n).length = n := by
  induction n generalizing c with
  | zero => rfl
  | succ k ih => simp [dateSeq, ih]

theorem head_dateSeq (c : Date) (n : Nat) (h : 1 ≤ n) :
    (dateSeq c n).head? = some c := by
  cases n with
  | zero => omega
  | succ k => rfl

theorem chain_dateSeq (c : Date) (n : Nat) :
    List.Chain' (fun a b => b = nextDay a) (dateSeq c n) := by
  induction n generalizing c with
  | zero => simp [dateSeq]
  | succ k ih =>
    cases k with
    | zero => simp [dateSeq]
    | succ j =>
      rw [dateSeq, dateSeq, List.chain'_cons]
      exact ⟨rfl, by rw [← dateSeq]; exact ih (nextDay c)⟩

theorem getLast_dateSeq (endD : Date) (hend : ValidDate endD) :
    ∀ (n : Nat) (c : Date), ValidDate c → ord c + n = ord endD + 1 → 1 ≤ n →
      (dateSeq c n).getLast? = some endD := by
  intro n
  induction n with
  | zero => omega
  | succ k ih =>
    intro c hc hord hn
    cases k with
    | zero =>
      have : c = endD := date_eq_of_ord_eq hc hend (by omega)
      rw [this]
      rfl
    | succ j =>
      rw [dateSeq, dateSeq, List.getLast?_cons_cons, ← dateSeq]
      exact ih (nextDay c) (validDate_nextDay hc) (by rw [ord_nextDay hc]; omega) (by omega)

theorem mem_dateSeq (endD : Date) (hend : ValidDate endD) :
    ∀ (n : Nat) (c : Date), ValidDate c → ord c + n ≤ ord endD + 1 →
      ∀ d ∈ dateSeq c n,
        ValidDate d ∧ dateLe c d = true ∧ dateLe d endD = true := by
  intro n
  induction n with
  | zero => intro c _ _ d hd; simp [dateSeq] at hd
  | succ k ih =>
    intro c hc hord d hd
    rw [dateSeq, List.mem_cons] at hd
    rcases hd with rfl | hd
    · refine ⟨hc, dateLe_refl d, ?_⟩
      rw [dateLe_iff hc hend]
      omega
    · have hc' := validDate_nextDay hc
      have hstep := ord_nextDay hc
      obtain ⟨hvd, hle1, hle2⟩ := ih (nextDay c) hc' (by omega) d hd
      refine ⟨hvd, ?_, hle2⟩
      refine dateLe_trans ?_ hle1
      rw [dateLe_iff hc hc']
      omega

/-- With exactly `daySpan`-many units of fuel, the while loop visits exactly
the consecutive days from `current` to `endD`. -/
theorem genRows_eq_dateSeq (P : Providers) (endD : Date) (hend : ValidDate endD) :
    ∀ (fuel : Nat) (c : Date), ValidDate c → ord c + fuel = ord endD + 1 →
      genRows P c endD fuel = (dateSeq c fuel).map (mkRow P) := by
  intro fuel
  induction fuel with
  | zero => intro c _ _; rfl
  | succ k ih =>
    intro c hc hord
    have hle : dateLe c endD = true := by
      rw [dateLe_iff hc hend]
      omega
    rw [genRows, if_pos hle, dateSeq, List.map_cons]
    exact congrArg _ (ih (nextDay c) (validDate_nextDay hc) (by rw [ord_nextDay hc]; omega))

/-- The fuel-instrumented loop finishes (returns `some`) with `daySpan` fuel,
and agrees with `genRows`. -/
theorem loopIter_total (P : Providers) (endD : Date) (hend : ValidDate endD) :
    ∀ (fuel : Nat) (c : Date), ValidDate c → ord c + fuel = ord endD + 1 →
      loopIter P c endD fuel = some (genRows P c endD fuel) := by
  intro fuel
  induction fuel with
  | zero =>
    intro c hc hord
    have hgt : dateLe c endD = false := by
      rcases Bool.eq_false_or_eq_true (dateLe c endD) with h | h
      · rw [dateLe_iff hc hend] at h
        omega
      · exact h
    rw [loopIter]
    rw [hgt]
    rfl
  | succ k ih =>
    intro c hc hord
    have hle : dateLe c endD = true := by
      rw [dateLe_iff hc hend]
      omega
    rw [loopIter, hle, genRows, if_pos hle,
      ih (nextDay c) (validDate_nextDay hc) (by rw [ord_nextDay hc]; omega)]
    rfl

/-- Success characterization of `generate_calendar_csv`: when no error is
raised, both dates parsed, the order and range checks passed, the dirname is
non-empty, and the trace is the mkdir followed by the full write. -/
theorem generate_success {P : Providers} {s e out : String} {tr : List FsEffect}
    (h : generate_calendar_csv P s e out = (tr, none)) :
    ∃ start endD, parseDate s = some start ∧ parseDate e = some endD ∧
      dateLe start endD = true ∧ validate_date_range_fails start endD = false ∧
      dirname out ≠ "" ∧
      tr = [.mkdir (dirname out),
            .writeFile out fieldnames (genRows P start endD (daySpan start endD))] := by
  unfold generate_calendar_csv at h
  split at h
  · simp at h
  · rename_i start hs
    split at h
    · simp at h
    · rename_i endD he
      split at h
      · simp at h
      · rename_i hord
        split at h
        · simp at h
        · rename_i hrange
          split at h
          · simp at h
          · rename_i hdir
            refine ⟨start, endD, hs, he, not_not.mp hord, Bool.eq_false_iff.mpr hrange,
              hdir, (congrArg Prod.fst h).symm⟩

/- ### Parsing and formatting facts -/

theorem checkDateFields_valid {y m day : Nat} {d : Date}
    (h : checkDateFields y m day = some d) : ValidDate d ∧ d.year ≤ 9999 := by
  unfold checkDateFields at h
  split at h
  · rename_i hg
    injection h with h'
    subst h'
    exact ⟨⟨hg.1, hg.2.2.1, hg.2.2.2.1, hg.2.2.2.2.1, hg.2.2.2.2.2⟩, hg.2.1⟩
  · exact absurd h (by simp)

theorem parseDate_valid {s : String} {d : Date} (h : parseDate s = some d) :
    ValidDate d ∧ d.year ≤ 9999 := by
  unfold parseDate at h
  repeat' split at h
  all_goals first
    | exact absurd h (by simp)
    | exact checkDateFields_valid h

theorem digitChar_toNat (n : Nat) : (digitChar n).toNat = 48 + n % 10 := by
  have hb : ∀ j, j < 10 → (Char.ofNat (48 + j)).toNat = 48 + j := by decide
  have h := hb (n % 10) (Nat.mod_lt _ (by norm_num))
  simpa [digitChar] using h

theorem digitVal_digitChar (n : Nat) : digitVal (digitChar n) = some (n % 10) := by
  unfold digitVal
  rw [digitChar_toNat]
  rw [if_pos (by omega)]
  congr 1
  omega

theorem digitChar_ne_space (n : Nat) : ¬ (digitChar n = ' ') := by
  intro he
  have h := congrArg Char.toNat he
  rw [digitChar_toNat] at h
  have h2 : (' ').toNat = 32 := rfl
  omega

theorem parseMonthField_format (m : Nat) (h1 : 1 ≤ m) (h2 : m ≤ 12) (tail : List Char) :
    parseMonthField (digitChar (m / 10) :: digitChar m :: tail) = some (m, tail) := by
  have hv : m / 10 % 10 * 10 + m % 10 = m := by omega
  simp only [parseMonthField, digitVal_digitChar, hv]
  rw [if_pos ⟨h1, h2⟩]

theorem parseDayField_format (day : Nat) (h1 : 1 ≤ day) (h2 : day ≤ 31) :
    parseDayField [digitChar (day / 10), digitChar day] = some (day, []) := by
  have hv : day / 10 % 10 * 10 + day % 10 = day := by omega
  simp only [parseDayField]
  rw [if_neg (digitChar_ne_space (day / 10))]
  simp only [digitVal_digitChar, hv]
  rw [if_pos ⟨h1, h2⟩]

/-- Formatting a valid four-digit-year date and parsing it back is the
identity (strftime/strptime round-trip). -/
theorem parse_formatDate {d : Date} (h : ValidDate d) (hy1 : 1000 ≤ d.year)
    (hy2 : d.year ≤ 9999) : parseDate (formatDate d) = some d := by
  obtain ⟨h1, h2, h3, h4, h5⟩ := h
  have hdim : daysInMonth d.year d.month ≤ 31 := daysInMonth_le d.year d.month
  have hyv : ((d.year / 1000 % 10 * 10 + d.year / 100 % 10) * 10 + d.year / 10 % 10) * 10
      + d.year % 10 = d.year := by omega
  simp only [parseDate, formatDate, String.toList, digitVal_digitChar,
    parseMonthField_format d.month h2 h3, parseDayField_format d.day h4 (le_trans h5 hdim),
    hyv]
  unfold checkDateFields
  rw [if_pos ⟨by omega, hy2, h2, h3, h4, h5⟩]

/- ### Emission facts shared by the row-wise claims -/

theorem rowDate_mkRow (P : Providers) (d : Date) : rowDate (mkRow P d) = d := rfl

theorem chain_dateSeq_ord (c : Date) (hc : ValidDate c) (n : Nat) :
    List.Chain' (fun a b => b = nextDay a ∧ ord b = ord a + 1) (dateSeq c n) := by
  induction n generalizing c with
  | zero => simp [dateSeq]
  | succ k ih =>
    cases k with
    | zero => simp [dateSeq]
    | succ j =>
      rw [dateSeq, dateSeq, List.chain'_cons]
      refine ⟨⟨rfl, ord_nextDay hc⟩, ?_⟩
      rw [← dateSeq]
      exact ih (nextDay c) (validDate_nextDay hc)

/-- Every row emitted by a successful run is `mkRow` of a valid day lying
between the parsed `start` and `end`. -/
theorem mem_emitted {P : Providers} {s e out : String} {tr : List FsEffect} {r : Row}
    (hrun : generate_calendar_csv P s e out = (tr, none)) (hr : r ∈ emittedRows tr) :
    ∃ start endD d, parseDate s = some start ∧ parseDate e = some endD ∧
      validate_date_range_fails start endD = false ∧
      ValidDate d ∧ dateLe start d = true ∧ dateLe d endD = true ∧
      r = mkRow P d := by
  obtain ⟨start, endD, hs, he, hle, hrange, hdir, htr⟩ := generate_success hrun
  have hvs := (parseDate_valid hs).1
  have hve := (parseDate_valid he).1
  have hords : ord start ≤ ord endD := (dateLe_iff hvs hve).mp hle
  have hspan : ord start + daySpan start endD = ord endD + 1 := by
    unfold daySpan
    omega
  have hrows : emittedRows tr = (dateSeq start (daySpan start endD)).map (mkRow P) := by
    rw [htr]
    simp [emittedRows]
    exact genRows_eq_dateSeq P endD hve _ start hvs hspan
  rw [hrows] at hr
  obtain ⟨d, hd, hrd⟩ := List.mem_map.mp hr
  obtain ⟨hvd, hled1, hled2⟩ := mem_dateSeq endD hve _ start hvs (by omega) d hd
  exact ⟨start, endD, d, hs, he, hrange, hvd, hled1, hled2, hrd.symm⟩

/-- Reduction of `generate_calendar_csv` once both date strings parse. -/
theorem generate_parsed {P : Providers} {s e out : String} {start endD : Date}
    (hs : parseDate s = some start) (he : parseDate e = some endD) :
    generate_calendar_csv P s e out =
      if ¬ dateLe start endD then ([], some CalError.orderError)
      else if validate_date_range_fails start endD then ([], some CalError.rangeError)
      else if dirname out = "" then ([], some CalError.ioError)
      else ([.mkdir (dirname out),
             .writeFile out fieldnames (genRows P start endD (daySpan start endD))],
            none) := by
  unfold generate_calendar_csv
  rw [hs, he]

/- ### Claim theorems -/

/-- C1: on a successful run with parsed dates `start` and `end`,
`generate_calendar_csv` emits exactly one data row per calendar day of the
inclusive range: the number of rows equals the inclusive day count
(`daySpan`), the row dates begin at `start`, end at `end`, and each
successive row's date is the next calendar day (its ordinal exactly one
larger). -/
theorem c1_one_row_per_day {P : Providers} {s e out : String} {tr : List FsEffect}
    {start endD : Date}
    (hs : parseDate s = some start) (he : parseDate e = some endD)
    (hrun : generate_calendar_csv P s e out = (tr, none)) :
    (emittedRows tr).length = daySpan start endD ∧
    ((emittedRows tr).map rowDate).head? = some start ∧
    ((emittedRows tr).map rowDate).getLast? = some endD ∧
    List.Chain' (fun a b => b = nextDay a ∧ ord b = ord a + 1)
      ((emittedRows tr).map rowDate) := by
  obtain ⟨start', endD', hs', he', hle, hrange, hdir, htr⟩ := generate_success hrun
  rw [hs] at hs'
  rw [he] at he'
  injection hs' with hseq
  injection he' with heeq
  subst hseq
  subst heeq
  have hvs := (parseDate_valid hs).1
  have hve := (parseDate_valid he).1
  have hords : ord start ≤ ord endD := (dateLe_iff hvs hve).mp hle
  have hspan : ord start + daySpan start endD = ord endD + 1 := by
    unfold daySpan
    omega
  have hrows : emittedRows tr = (dateSeq start (daySpan start endD)).map (mkRow P) := by
    rw [htr]
    simp [emittedRows]
    exact genRows_eq_dateSeq P endD hve _ start hvs hspan
  have hid : (rowDate ∘ mkRow P) = id := funext fun d => rfl
  refine ⟨?_, ?_, ?_, ?_⟩
  · rw [hrows, List.length_map, length_dateSeq]
  · rw [hrows, List.map_map, hid, List.map_id]
    exact head_dateSeq start _ (by omega)
  · rw [hrows, List.map_map, hid, List.map_id]
    exact getLast_dateSeq endD hve _ start hvs hspan (by omega)
  · rw [hrows, List.map_map, hid, List.map_id]
    exact chain_dateSeq_ord start hvs _

theorem c1_one_row_per_day_witness :
    (emittedRows (generate_calendar_csv trivialProviders
        "2025-01-01" "2025-01-03" "output/a.csv").1).length
      = daySpan ⟨2025, 1, 1⟩ ⟨2025, 1, 3⟩ ∧
    ((emittedRows (generate_calendar_csv trivialProviders
        "2025-01-01" "2025-01-03" "output/a.csv").1).map rowDate).head?
      = some ⟨2025, 1, 1⟩ ∧
    ((emittedRows (generate_calendar_csv trivialProviders
        "2025-01-01" "2025-01-03" "output/a.csv").1).map rowDate).getLast?
      = some ⟨2025, 1, 3⟩ ∧
    List.Chain' (fun a b => b = nextDay a ∧ ord b = ord a + 1)
      ((emittedRows (generate_calendar_csv trivialProviders
        "2025-01-01" "2025-01-03" "output/a.csv").1).map rowDate) :=
  @c1_one_row_per_day trivialProviders "2025-01-01" "2025-01-03" "output/a.csv"
    ((generate_calendar_csv trivialProviders "2025-01-01" "2025-01-03" "output/a.csv").1)
    ⟨2025, 1, 1⟩ ⟨2025, 1, 3⟩
    (by decide) (by decide) (by decide)

/-- C10: for parsed dates with `start <= end`, the per-day loop terminates:
with fuel equal to the inclusive day count the fuel-instrumented loop
completes (returns `some`), producing exactly the rows of `genRows`; the
cursor gains one ordinal per iteration, so `daySpan` iterations reach the
fixed end date. -/
theorem c10_loop_terminates {s e : String} {start endD : Date} (P : Providers)
    (hs : parseDate s = some start) (he : parseDate e = some endD)
    (hle : dateLe start endD = true) :
    loopIter P start endD (daySpan start endD)
      = some (genRows P start endD (daySpan start endD)) := by
  have hvs := (parseDate_valid hs).1
  have hve := (parseDate_valid he).1
  apply loopIter_total P endD hve _ start hvs
  have hords : ord start ≤ ord endD := (dateLe_iff hvs hve).mp hle
  unfold daySpan
  omega

theorem c10_loop_terminates_witness :
    loopIter trivialProviders ⟨2025, 1, 1⟩ ⟨2025, 1, 3⟩ (daySpan ⟨2025, 1, 1⟩ ⟨2025, 1, 3⟩)
      = some (genRows trivialProviders ⟨2025, 1, 1⟩ ⟨2025, 1, 3⟩
          (daySpan ⟨2025, 1, 1⟩ ⟨2025, 1, 3⟩)) :=
  @c10_loop_terminates "2025-01-01" "2025-01-03" ⟨2025, 1, 1⟩ ⟨2025, 1, 3⟩ trivialProviders
    (by decide) (by decide) (by decide)

/-- C3: for parsed, correctly ordered inputs, `generate_calendar_csv` raises
the range error exactly when `start.year < 2004` or `end.year > 2030` (both
bounds inclusive); in particular any `start <= end` with both years in
[2004, 2030] passes range validation. -/
theorem c3_range_check {P : Providers} {s e out : String} {start endD : Date}
    (hs : parseDate s = some start) (he : parseDate e = some endD)
    (hle : dateLe start endD = true) :
    (generate_calendar_csv P s e out).2 = some CalError.rangeError ↔
      (start.year < 2004 ∨ 2030 < endD.year) := by
  rw [generate_parsed hs he]
  rw [if_neg (not_not.mpr hle)]
  by_cases hr : validate_date_range_fails start endD = true
  · rw [if_pos hr]
    unfold validate_date_range_fails CHINESE_CALENDAR_MIN_YEAR CHINESE_CALENDAR_MAX_YEAR at hr
    rw [decide_eq_true_iff] at hr
    exact iff_of_true rfl hr
  · rw [if_neg hr]
    have hnr : ¬ (start.year < 2004 ∨ 2030 < endD.year) := by
      intro hc
      apply hr
      unfold validate_date_range_fails CHINESE_CALENDAR_MIN_YEAR CHINESE_CALENDAR_MAX_YEAR
      rw [decide_eq_true_iff]
      exact hc
    by_cases hd : dirname out = ""
    · rw [if_pos hd]
      exact iff_of_false (by simp) hnr
    · rw [if_neg hd]
      exact iff_of_false (by simp) hnr

theorem c3_range_check_witness :
    (generate_calendar_csv trivialProviders "2003-12-31" "2004-01-02" "output/a.csv").2
      = some CalError.rangeError :=
  (@c3_range_check trivialProviders "2003-12-31" "2004-01-02" "output/a.csv"
    ⟨2003, 12, 31⟩ ⟨2004, 1, 2⟩
    (by decide) (by decide) (by decide)).mpr (by decide)

/-- C8: every validation failure (format, order or range) of
`generate_calendar_csv` happens before any filesystem effect: the effect
trace of such a failing run is empty (no directory created, no file
opened). -/
theorem c8_no_effects_on_validation_failure {P : Providers} {s e out : String}
    {tr : List FsEffect} {err : CalError}
    (hrun : generate_calendar_csv P s e out = (tr, some err))
    (_hval : err = CalError.formatError ∨ err = CalError.orderError ∨
      err = CalError.rangeError) :
    tr = [] := by
  unfold generate_calendar_csv at hrun
  repeat' split at hrun
  all_goals first
    | exact (congrArg Prod.fst hrun).symm
    | (have h2 := congrArg Prod.snd hrun
       simp at h2)

theorem c8_no_effects_on_validation_failure_witness :
    ([] : List FsEffect) = [] ∧
    generate_calendar_csv trivialProviders "2025/01/01" "2025-01-02" "output/a.csv"
      = ([], some CalError.formatError) :=
  ⟨@c8_no_effects_on_validation_failure trivialProviders "2025/01/01" "2025-01-02"
      "output/a.csv" [] CalError.formatError
      (by decide) (Or.inl rfl),
    by decide⟩

theorem decadeLabel_spec (day : Nat) (h : 1 ≤ day) :
    (decadeLabel day = "上旬" ↔ (1 ≤ day ∧ day ≤ 10)) ∧
    (decadeLabel day = "中旬" ↔ (11 ≤ day ∧ day ≤ 20)) ∧
    (decadeLabel day = "下旬" ↔ 21 ≤ day) := by
  have hne1 : ("中旬" : String) ≠ "上旬" := by decide
  have hne2 : ("下旬" : String) ≠ "上旬" := by decide
  have hne3 : ("上旬" : String) ≠ "中旬" := by decide
  have hne4 : ("下旬" : String) ≠ "中旬" := by decide
  have hne5 : ("上旬" : String) ≠ "下旬" := by decide
  have hne6 : ("中旬" : String) ≠ "下旬" := by decide
  unfold decadeLabel
  split_ifs with ha hb
  · exact ⟨iff_of_true rfl ha, iff_of_false hne3 (by omega), iff_of_false hne5 (by omega)⟩
  · exact ⟨iff_of_false hne1 ha, iff_of_true rfl hb, iff_of_false hne6 (by omega)⟩
  · exact ⟨iff_of_false hne2 ha, iff_of_false hne4 hb, iff_of_true rfl (by omega)⟩

/-- C5: in every emitted row, the decade-of-month column is 上旬 iff the
day-of-month is in [1,10], 中旬 iff in [11,20], 下旬 iff ≥ 21; in particular
the last day of the row's month (28-31 days) is always labelled 下旬. -/
theorem c5_decade_of_month {P : Providers} {s e out : String} {tr : List FsEffect} {r : Row}
    (hrun : generate_calendar_csv P s e out = (tr, none)) (hr : r ∈ emittedRows tr) :
    (r.decade = "上旬" ↔ (1 ≤ r.gDay ∧ r.gDay ≤ 10)) ∧
    (r.decade = "中旬" ↔ (11 ≤ r.gDay ∧ r.gDay ≤ 20)) ∧
    (r.decade = "下旬" ↔ 21 ≤ r.gDay) ∧
    (r.gDay = daysInMonth r.gYear r.gMonth → r.decade = "下旬") := by
  obtain ⟨start, endD, d, hs, he, hrange, hvd, hld1, hld2, hrd⟩ := mem_emitted hrun hr
  subst hrd
  obtain ⟨hvy, hvm1, hvm2, hvd1, hvd2⟩ := hvd
  have hday : (mkRow P d).gDay = d.day := rfl
  have hdec : (mkRow P d).decade = decadeLabel d.day := rfl
  have hgy : (mkRow P d).gYear = d.year := rfl
  have hgm : (mkRow P d).gMonth = d.month := rfl
  rw [hday, hdec, hgy, hgm]
  have hspec := decadeLabel_spec d.day hvd1
  refine ⟨hspec.1, hspec.2.1, hspec.2.2, ?_⟩
  intro hlast
  rw [hspec.2.2]
  have hge := daysInMonth_ge d.year d.month
  omega

theorem c5_decade_of_month_witness :
    ((mkRow trivialProviders ⟨2025, 1, 1⟩).decade = "上旬" ↔
      (1 ≤ (mkRow trivialProviders ⟨2025, 1, 1⟩).gDay ∧
        (mkRow trivialProviders ⟨2025, 1, 1⟩).gDay ≤ 10)) ∧
    ((mkRow trivialProviders ⟨2025, 1, 1⟩).decade = "中旬" ↔
      (11 ≤ (mkRow trivialProviders ⟨2025, 1, 1⟩).gDay ∧
        (mkRow trivialProviders ⟨2025, 1, 1⟩).gDay ≤ 20)) ∧
    ((mkRow trivialProviders ⟨2025, 1, 1⟩).decade = "下旬" ↔
      21 ≤ (mkRow trivialProviders ⟨2025, 1, 1⟩).gDay) ∧
    ((mkRow trivialProviders ⟨2025, 1, 1⟩).gDay =
        daysInMonth (mkRow trivialProviders ⟨2025, 1, 1⟩).gYear
          (mkRow trivialProviders ⟨2025, 1, 1⟩).gMonth →
      (mkRow trivialProviders ⟨2025, 1, 1⟩).decade = "下旬") :=
  @c5_decade_of_month trivialProviders "2025-01-01" "2025-01-03" "output/a.csv"
    ((generate_calendar_csv trivialProviders "2025-01-01" "2025-01-03" "output/a.csv").1)
    (mkRow trivialProviders ⟨2025, 1, 1⟩)
    (by decide) (by decide)

/-- C6: in every emitted row, the lunar-month column is the absolute value of
the provider's signed lunar month, the leap-month column is 是 exactly when
that signed month is negative, and the emitted lunar month is never
negative. -/
theorem c6_lunar_month_absolute {P : Providers} {s e out : String} {tr : List FsEffect}
    {r : Row}
    (hrun : generate_calendar_csv P s e out = (tr, none)) (hr : r ∈ emittedRows tr) :
    ∃ d : Date, r = mkRow P d ∧
      r.lunarMonth = |(P.lunar d).lunarMonth| ∧
      (r.isLeapMonth = "是" ↔ (P.lunar d).lunarMonth < 0) ∧
      0 ≤ r.lunarMonth := by
  obtain ⟨start, endD, d, hs, he, hrange, hvd, hld1, hld2, hrd⟩ := mem_emitted hrun hr
  subst hrd
  refine ⟨d, rfl, rfl, ?_, abs_nonneg _⟩
  have hl : (mkRow P d).isLeapMonth =
      if (P.lunar d).lunarMonth < 0 then "是" else "否" := rfl
  rw [hl]
  by_cases hneg : (P.lunar d).lunarMonth < 0
  · rw [if_pos hneg]
    exact iff_of_true rfl hneg
  · rw [if_neg hneg]
    exact iff_of_false (by decide) hneg

theorem c6_lunar_month_absolute_witness :
    ∃ d : Date, mkRow trivialProviders ⟨2025, 1, 1⟩ = mkRow trivialProviders d ∧
      (mkRow trivialProviders ⟨2025, 1, 1⟩).lunarMonth
        = |(trivialProviders.lunar d).lunarMonth| ∧
      ((mkRow trivialProviders ⟨2025, 1, 1⟩).isLeapMonth = "是" ↔
        (trivialProviders.lunar d).lunarMonth < 0) ∧
      0 ≤ (mkRow trivialProviders ⟨2025, 1, 1⟩).lunarMonth :=
  @c6_lunar_month_absolute trivialProviders "2025-01-01" "2025-01-03" "output/a.csv"
    ((generate_calendar_csv trivialProviders "2025-01-01" "2025-01-03" "output/a.csv").1)
    (mkRow trivialProviders ⟨2025, 1, 1⟩)
    (by decide) (by decide)

/-- C2 as stated is refuted: a provider whose `get_holiday_detail` carries no
name (as `chinese_calendar` does on ordinary weekends) yields a successful
run with a row whose day the holiday provider classifies as a holiday but
whose holiday-name column is the empty string. -/
theorem c2_counterexample :
    (generate_calendar_csv unnamedHolidayProviders
        "2025-10-01" "2025-10-01" "output/a.csv").2 = none ∧
    ∃ r ∈ emittedRows (generate_calendar_csv unnamedHolidayProviders
        "2025-10-01" "2025-10-01" "output/a.csv").1,
      unnamedHolidayProviders.is_holiday (rowDate r) = true ∧
      r.holidayName = "" := by decide

/-- C2 amended: on every emitted row of a holiday day the is-workday column
is 否, the holiday-name column equals the name returned by the holiday
detail provider (empty when that name is absent), and the workday provider
is not consulted (the row is unchanged under any replacement of it); on
non-holiday days is_workday comes directly from the workday provider and the
holiday name is empty. -/
theorem c2_holiday_row_amended {P : Providers} {s e out : String} {tr : List FsEffect}
    {r : Row}
    (hrun : generate_calendar_csv P s e out = (tr, none)) (hr : r ∈ emittedRows tr) :
    ∃ d : Date, r = mkRow P d ∧
      (P.is_holiday d = true →
        r.isWorkdayStr = "否" ∧
        r.holidayName = ((P.get_holiday_detail d).2).getD "" ∧
        (∀ w : Date → Bool, mkRow { P with is_workday := w } d = mkRow P d)) ∧
      (P.is_holiday d = false →
        r.isWorkdayStr = (if P.is_workday d then "是" else "否") ∧
        r.holidayName = "") := by
  obtain ⟨start, endD, d, hs, he, hrange, hvd, hld1, hld2, hrd⟩ := mem_emitted hrun hr
  subst hrd
  refine ⟨d, rfl, ?_, ?_⟩
  · intro hhol
    refine ⟨?_, ?_, ?_⟩
    · show (if (if P.is_holiday d then !(P.is_holiday d) else P.is_workday d)
          then "是" else "否") = "否"
      rw [hhol]
      rfl
    · show (if P.is_holiday d then ((P.get_holiday_detail d).2).getD "" else "")
          = ((P.get_holiday_detail d).2).getD ""
      rw [hhol]
      rfl
    · intro w
      unfold mkRow
      dsimp only
      rw [hhol]
      rfl
  · intro hhol
    constructor
    · show (if (if P.is_holiday d then !(P.is_holiday d) else P.is_workday d)
          then "是" else "否") = (if P.is_workday d then "是" else "否")
      rw [hhol]
      rfl
    · show (if P.is_holiday d then ((P.get_holiday_detail d).2).getD "" else "") = ""
      rw [hhol]
      rfl

theorem c2_holiday_row_amended_witness :
    ∃ d : Date, mkRow unnamedHolidayProviders ⟨2025, 10, 1⟩ = mkRow unnamedHolidayProviders d ∧
      (unnamedHolidayProviders.is_holiday d = true →
        (mkRow unnamedHolidayProviders ⟨2025, 10, 1⟩).isWorkdayStr = "否" ∧
        (mkRow unnamedHolidayProviders ⟨2025, 10, 1⟩).holidayName
          = ((unnamedHolidayProviders.get_holiday_detail d).2).getD "" ∧
        (∀ w : Date → Bool,
          mkRow { unnamedHolidayProviders with is_workday := w } d
            = mkRow unnamedHolidayProviders d)) ∧
      (unnamedHolidayProviders.is_holiday d = false →
        (mkRow unnamedHolidayProviders ⟨2025, 10, 1⟩).isWorkdayStr
          = (if unnamedHolidayProviders.is_workday d then "是" else "否") ∧
        (mkRow unnamedHolidayProviders ⟨2025, 10, 1⟩).holidayName = "") :=
  @c2_holiday_row_amended unnamedHolidayProviders "2025-10-01" "2025-10-01" "output/a.csv"
    ((generate_calendar_csv unnamedHolidayProviders
      "2025-10-01" "2025-10-01" "output/a.csv").1)
    (mkRow unnamedHolidayProviders ⟨2025, 10, 1⟩)
    (by decide) (by decide)

/-- C7 as stated is refuted on its universal part: strptime's `%m`/`%d`
patterns accept non-zero-padded components, so the non-exact-format string
"2025-1-1" parses successfully (as 2025-01-01) and does not raise a format
error. -/
theorem c7_counterexample :
    parseDate "2025-1-1" = some ⟨2025, 1, 1⟩ ∧
    (generate_calendar_csv trivialProviders "2025-1-1" "2025-01-02" "output/a.csv").2
      ≠ some CalError.formatError := by decide

/-- C7 amended: a format error is raised whenever either input fails
strptime's lenient "%Y-%m-%d" parse (e.g. "2025/01/01"), and every string in
the exact zero-padded format denoting a valid calendar date is accepted —
but zero-padding of month/day is not required for acceptance. -/
theorem c7_format_check_amended (P : Providers) (s e out : String) :
    ((parseDate s = none ∨ parseDate e = none) →
      (generate_calendar_csv P s e out).2 = some CalError.formatError) ∧
    parseDate "2025/01/01" = none ∧
    (∀ d : Date, ValidDate d → 1000 ≤ d.year → d.year ≤ 9999 →
      parseDate (formatDate d) = some d) := by
  refine ⟨?_, by decide, fun d hv h1 h2 => parse_formatDate hv h1 h2⟩
  intro hbad
  unfold generate_calendar_csv
  rcases hbad with hb | hb
  · rw [hb]
  · cases hps : parseDate s with
    | none => rfl
    | some st =>
      rw [hb]

theorem c7_format_check_amended_witness :
    (generate_calendar_csv trivialProviders "2025/01/01" "2025-01-02" "output/a.csv").2
      = some CalError.formatError ∧
    parseDate (formatDate ⟨2025, 1, 1⟩) = some ⟨2025, 1, 1⟩ :=
  ⟨(c7_format_check_amended trivialProviders "2025/01/01" "2025-01-02" "output/a.csv").1
      (Or.inl (by decide)),
    (c7_format_check_amended trivialProviders "2025/01/01" "2025-01-02" "output/a.csv").2.2
      ⟨2025, 1, 1⟩ (by decide) (by decide) (by decide)⟩

/-- C9: for every emitted row, re-parsing the row's `gregorian_date` string
recovers the row's date, and re-deriving the weekday label (Monday-first
7-entry lookup) and the decade-of-month label from it reproduces exactly the
values already in the row. -/
theorem c9_roundtrip {P : Providers} {s e out : String} {tr : List FsEffect} {r : Row}
    (hrun : generate_calendar_csv P s e out = (tr, none)) (hr : r ∈ emittedRows tr) :
    parseDate r.gregorianDate = some (rowDate r) ∧
    WEEKDAY_NAMES.getD (weekdayIndex (rowDate r)) "" = r.weekday ∧
    decadeLabel (rowDate r).day = r.decade := by
  obtain ⟨start, endD, d, hs, he, hrange, hvd, hld1, hld2, hrd⟩ := mem_emitted hrun hr
  subst hrd
  have hys : ¬ (start.year < 2004 ∨ 2030 < endD.year) := by
    unfold validate_date_range_fails CHINESE_CALENDAR_MIN_YEAR CHINESE_CALENDAR_MAX_YEAR
      at hrange
    exact of_decide_eq_false hrange
  have hy1 : 1000 ≤ d.year := by
    have h := dateLe_year_le hld1
    omega
  have hy2 : d.year ≤ 9999 := by
    have h := dateLe_year_le hld2
    omega
  exact ⟨parse_formatDate hvd hy1 hy2, rfl, rfl⟩

theorem c9_roundtrip_witness :
    parseDate (mkRow trivialProviders ⟨2025, 1, 1⟩).gregorianDate
      = some (rowDate (mkRow trivialProviders ⟨2025, 1, 1⟩)) ∧
    WEEKDAY_NAMES.getD (weekdayIndex (rowDate (mkRow trivialProviders ⟨2025, 1, 1⟩))) ""
      = (mkRow trivialProviders ⟨2025, 1, 1⟩).weekday ∧
    decadeLabel (rowDate (mkRow trivialProviders ⟨2025, 1, 1⟩)).day
      = (mkRow trivialProviders ⟨2025, 1, 1⟩).decade :=
  @c9_roundtrip trivialProviders "2025-01-01" "2025-01-03" "output/a.csv"
    ((generate_calendar_csv trivialProviders "2025-01-01" "2025-01-03" "output/a.csv").1)
    (mkRow trivialProviders ⟨2025, 1, 1⟩)
    (by decide) (by decide)

/-- C4 as specified fails on the code: with the declared default output file
name (a bare filename with no directory component) `os.path.dirname` yields
the empty string and `os.makedirs("")` raises `FileNotFoundError` before the
output file is ever opened, so no directory is created and nothing is
written. -/
theorem c4_default_output_file_crashes :
    dirname "calendar_output.csv" = "" ∧
    generate_calendar_csv trivialProviders "2025-01-01" "2025-01-03" "calendar_output.csv"
      = ([], some CalError.ioError) := by decide

end ChineseCalendarCsv
